import Mathlib

/-!
Verification development for the Friendsgiving menu service (Go).

The service keeps a list of menu entries (who brings which dish) persisted
as a JSON file, offers add/remove/read operations guarded by a mutex, and
fans post-mutation snapshots out to SSE subscribers over buffered channels.

This file shallowly embeds the relevant parts of the Go sources:
  * `MenuItem`, the persisted entry struct (`src/main.go`, app package);
  * `GoSlice`, modelling the nil / non-nil distinction of Go slices of
    `MenuItem`, which matters because `encoding/json` marshals a nil slice
    as the JSON literal `null` but a non-nil empty slice as `[]`;
  * `formatInt`, the decimal rendering used for `strconv.FormatInt(_, 10)`;
  * `marshalIndentSlice`, the output of `json.MarshalIndent(menu, "", "    ")`
    on a `[]MenuItem` value (field order id, dish, who, four-space indent);
  * the Store operations `readMenu`, `addMenuItemHandler`, `deleteMenuItem`,
    `ensureMenuFile` (files are modelled as `Option String`: `none` means the
    file does not exist; I/O faults other than non-existence are out of scope,
    and JSON decoding is passed in as an explicit `unmarshal` function since
    it is performed by the external `encoding/json` library);
  * the SSE framing function `sendSSE`;
  * the Broadcaster (`addClient` / `removeClient` / `broadcastMenuUpdate`),
    with channels modelled as bounded buffers living in an indexed heap so
    that a channel object outlives its registry entry;
  * a small interleaving semantics for the lock discipline of the Store,
    used to compare the monolithic `main.go` handlers (which hold the mutex
    across the whole read-modify-persist sequence) with the decomposed app
    package (whose `writeMenu` takes no lock).
-/

namespace Friendsgiving

/-- One menu entry: who brings which dish. Translated from the Go struct
`MenuItem { ID, Dish, Who string }` shared by both program variants. -/
structure MenuItem where
  ID : String
  Dish : String
  Who : String
deriving DecidableEq, Repr

/-- A Go slice of `MenuItem`: either the nil slice or a non-nil backing
sequence (possibly empty). The distinction is observable through
`encoding/json`, which marshals nil as `null` and a non-nil empty slice
as an empty array. -/
inductive GoSlice where
  | goNil : GoSlice
  | goMk : List MenuItem → GoSlice
deriving DecidableEq, Repr

/-- The elements of a Go slice; the nil slice has none. -/
def GoSlice.toList : GoSlice → List MenuItem
  | .goNil => []
  | .goMk l => l

/-- Go `append(s, x)`: appending to the nil slice allocates a backing array,
so the result is always non-nil. -/
def GoSlice.append1 : GoSlice → MenuItem → GoSlice
  | .goNil, x => .goMk [x]
  | .goMk l, x => .goMk (l ++ [x])

/-- Decimal digits of a natural number, most significant first, with
explicit fuel so the kernel can evaluate it (the fuel `n + 1` always
suffices because the value shrinks by a factor of ten per step).
Returns `[]` on zero; `formatNat` special-cases zero as Go does. -/
def decimalDigitsAux : Nat → Nat → List Char
  | 0, _ => []
  | _ + 1, 0 => []
  | fuel + 1, n + 1 =>
    decimalDigitsAux fuel ((n + 1) / 10) ++ [Char.ofNat (48 + (n + 1) % 10)]

/-- Decimal rendering of a natural number, as produced by Go's
`strconv.FormatUint(_, 10)`. -/
def formatNat (n : Nat) : String :=
  if n = 0 then "0" else String.mk (decimalDigitsAux (n + 1) n)

/-- Go `strconv.FormatInt(i, 10)`: decimal digits with a leading minus sign
for negative values. The server feeds it `time.Now().UnixNano()`. -/
def formatInt (i : Int) : String :=
  if i < 0 then "-" ++ formatNat i.natAbs else formatNat i.natAbs

/-- JSON string escaping as performed by `encoding/json` with its default
HTML escaping: quote, backslash, newline, carriage return, tab, the HTML
characters, and remaining control characters become escape sequences. -/
def escapeChar (c : Char) : List Char :=
  if c = '\"' then ['\\', '\"']
  else if c = '\\' then ['\\', '\\']
  else if c = '\n' then ['\\', 'n']
  else if c = '\r' then ['\\', 'r']
  else if c = '\t' then ['\\', 't']
  else if c = '<' then String.toList "\\u003c"
  else if c = '>' then String.toList "\\u003e"
  else if c = '&' then String.toList "\\u0026"
  else if c.toNat < 32 then
    ['\\', 'u', '0', '0',
     Char.ofNat (if c.toNat / 16 < 10 then 48 + c.toNat / 16 else 87 + c.toNat / 16),
     Char.ofNat (if c.toNat % 16 < 10 then 48 + c.toNat % 16 else 87 + c.toNat % 16)]
  else [c]

/-- A JSON string literal: the escaped text between double quotes. -/
def quoteJson (s : String) : String :=
  "\"" ++ String.mk (List.flatten (s.data.map escapeChar)) ++ "\""

/-- One `MenuItem` as rendered inside the top-level array by
`json.MarshalIndent(menu, "", "    ")`: an object at depth one, so the
brace closes under four spaces and fields sit under eight. -/
def renderItem (it : MenuItem) : String :=
  "\x7b\n        \"id\": " ++ quoteJson it.ID ++
  ",\n        \"dish\": " ++ quoteJson it.Dish ++
  ",\n        \"who\": " ++ quoteJson it.Who ++ "\n    \x7d"

/-- `json.MarshalIndent(items, "", "    ")` on a non-nil `[]MenuItem`:
`[]` when empty, otherwise the items each on their own indented lines. -/
def marshalIndentList (items : List MenuItem) : String :=
  if items.isEmpty then "[]"
  else "[\n    " ++ String.intercalate ",\n    " (items.map renderItem) ++ "\n]"

/-- `json.MarshalIndent` on a `[]MenuItem` slice value: the nil slice
marshals to the JSON literal `null`, a non-nil slice to an array. -/
def marshalIndentSlice : GoSlice → String
  | .goNil => "null"
  | .goMk items => marshalIndentList items

/-- Whether a piece of text can parse as a JSON array: by the JSON grammar
(RFC 8259) a text denotes an array exactly when its first character after
optional insignificant whitespace (space, tab, newline, carriage return)
is an opening square bracket. -/
def isJsonArrayText (s : String) : Bool :=
  match s.data.dropWhile
      (fun c => c == ' ' || c == '\t' || c == '\n' || c == '\r') with
  | [] => false
  | c :: _ => c == '['

/-- The fixed two-entry seed menu written on first start, translated from
`defaultMenu` in the app package (and the literal in `ensureMenuFile` of
the monolithic variant). -/
def defaultMenu : List MenuItem :=
  [⟨"1763786780838787402", "Turkey", "Will"⟩,
   ⟨"1763786910210202650", "Dessert", "Sarah"⟩]

/-- `App.ensureMenuFile`: if the file does not exist (`none`), write the
marshalled seed menu; otherwise leave the file exactly as it is. -/
def ensureMenuFile (file : Option String) : Option String :=
  match file with
  | none => some (marshalIndentList defaultMenu)
  | some c => some c

/-- `App.readMenu`: a missing file and a zero-length file both yield the
empty (non-nil) menu with no error; other content is handed to
`json.Unmarshal`, supplied here as the explicit `unmarshal` argument
because it lives in the external `encoding/json` library. -/
def readMenu (unmarshal : String → Except String GoSlice)
    (file : Option String) : Except String GoSlice :=
  match file with
  | none => .ok (.goMk [])
  | some data => if data.length = 0 then .ok (.goMk []) else unmarshal data

/-- The add pipeline shared by `handleAddMenuItem`/`addMenuItem` in both
variants, from a decoded request body and the current parsed menu: reject
an empty dish or contributor, otherwise overwrite the body's id with the
clock-derived decimal string, append, and marshal the new menu (the bytes
that are persisted and broadcast). `now` is `time.Now().UnixNano()`. -/
def addMenuItemHandler (now : Int) (body : MenuItem) (menu : GoSlice) :
    Except String (GoSlice × String) :=
  if body.Dish = "" ∨ body.Who = "" then .error "Dish and Who are required"
  else
    let item : MenuItem := { body with ID := formatInt now }
    let newMenu := menu.append1 item
    .ok (newMenu, marshalIndentSlice newMenu)

/-- The filtering loop of `deleteMenuItem`: `var newMenu []MenuItem` starts
as the nil slice and keeps every entry whose id differs from the target.
When every entry is filtered out the result is still the nil slice. -/
def deleteLoop (id : String) (menu : List MenuItem) : GoSlice :=
  menu.foldl (fun acc it => if it.ID ≠ id then acc.append1 it else acc) .goNil

/-- The core of `deleteMenuItem` from the parsed menu: the retained slice
together with the marshalled bytes that get persisted and broadcast. -/
def deleteMenuItemOp (id : String) (menu : GoSlice) : GoSlice × String :=
  let newMenu := deleteLoop id menu.toList
  (newMenu, marshalIndentSlice newMenu)

/-- `App.deleteMenuItem` from the file state: read the menu (propagating a
read error), filter, marshal and persist. File writes themselves are
modelled as always succeeding. -/
def deleteMenuItem (unmarshal : String → Except String GoSlice)
    (id : String) (file : Option String) :
    Except String (GoSlice × String) :=
  match readMenu unmarshal file with
  | .error e => .error e
  | .ok menu => .ok (deleteMenuItemOp id menu)

/-- `strings.Split(s, "\n")` on the character sequence of `s`: the maximal
runs between newline characters, in order, keeping empty runs; the empty
string yields one empty piece, and `n` separators yield `n + 1` pieces. -/
def splitNewline : List Char → List (List Char)
  | [] => [[]]
  | c :: cs =>
    if c = '\n' then [] :: splitNewline cs
    else
      match splitNewline cs with
      | [] => [[c]]
      | l :: ls => (c :: l) :: ls

/-- The newline-separated pieces of a snapshot, as strings. -/
def splitLines (snapshot : String) : List String :=
  (splitNewline snapshot.data).map String.mk

/-- The data lines of one SSE event: one `data: ` line per snapshot line. -/
def dataLines : List String → String
  | [] => ""
  | l :: ls => "data: " ++ l ++ "\n" ++ dataLines ls

/-- `sendSSE`: writes the event name line, then loops over
`strings.Split(string(data), "\n")` writing one `data:` line per piece,
then a terminating blank line. The writer is modelled as a string
accumulator and the loop as a fold, mirroring the Go `for` loop. -/
def sendSSE (snapshot : String) : String :=
  let out := "event: menu\n"
  let out := (splitLines snapshot).foldl
    (fun acc line => acc ++ ("data: " ++ line ++ "\n")) out
  out ++ "\n"

/-! ### Helper lemmas -/

theorem GoSlice.toList_append1 (s : GoSlice) (x : MenuItem) :
    (s.append1 x).toList = s.toList ++ [x] := by
  cases s <;> rfl

theorem decimalDigitsAux_ne_nil (fuel n : Nat) :
    decimalDigitsAux (fuel + 1) (n + 1) ≠ [] := by
  simp [decimalDigitsAux]

theorem formatNat_ne_empty (n : Nat) : formatNat n ≠ "" := by
  cases n with
  | zero => decide
  | succ m =>
    intro h
    have h2 : decimalDigitsAux (m + 2) (m + 1) = [] := by
      have h3 := congrArg String.data h
      simpa [formatNat] using h3
    exact decimalDigitsAux_ne_nil (m + 1) m h2

theorem formatInt_ne_empty (i : Int) : formatInt i ≠ "" := by
  unfold formatInt
  split
  · intro h
    have h2 := congrArg String.data h
    simp [String.data_append] at h2
  · exact formatNat_ne_empty _

/-! ### Claim theorems -/

/-- Claim C6: reading the Store when the persisted file does not exist, and
also when it exists with zero bytes, returns the empty Menu with no error,
for any JSON decoder the library might supply. -/
theorem C6_read_missing_or_empty (unmarshal : String → Except String GoSlice) :
    readMenu unmarshal none = .ok (.goMk [])
      ∧ readMenu unmarshal (some "") = .ok (.goMk []) :=
  ⟨rfl, rfl⟩

/-- Claim C8: `ensureMenuFile` never touches an existing file (whatever its
content, including malformed bytes), writes the fixed two-entry seed menu
exactly when no file exists, and is idempotent: a second run leaves the
file byte-identical. -/
theorem C8_seed_idempotent :
    (∀ c : String, ensureMenuFile (some c) = some c)
      ∧ ensureMenuFile none = some (marshalIndentList defaultMenu)
      ∧ (∀ file : Option String,
          ensureMenuFile (ensureMenuFile file) = ensureMenuFile file) := by
  refine ⟨fun c => rfl, rfl, fun file => ?_⟩
  cases file <;> rfl

theorem sendSSE_foldl (ls : List String) (pre : String) :
    ls.foldl (fun acc line => acc ++ ("data: " ++ line ++ "\n")) pre
      = pre ++ dataLines ls := by
  induction ls generalizing pre with
  | nil => simp [dataLines]
  | cons l ls ih =>
    rw [List.foldl_cons, ih]
    simp [dataLines, String.append_assoc]

/-- Claim C9: the streaming frame for a snapshot is exactly one
`event: menu` line, then one `data: <segment>` line for every piece of the
snapshot split on newline characters, in order, then one blank line
terminating the event — and nothing else. -/
theorem C9_sse_frame (snapshot : String) :
    sendSSE snapshot
      = "event: menu\n" ++ dataLines (splitLines snapshot) ++ "\n" := by
  show (splitLines snapshot).foldl
      (fun acc line => acc ++ ("data: " ++ line ++ "\n")) "event: menu\n" ++ "\n"
    = "event: menu\n" ++ dataLines (splitLines snapshot) ++ "\n"
  rw [sendSSE_foldl]

/-- Claim C5 (refuted on the code): deleting the only entry of a menu
persists the five bytes `null` — the `MarshalIndent` image of the nil Go
slice — which no JSON array can produce, although the pre-state bytes were
a proper JSON array. -/
theorem C5_empty_delete_writes_null :
    (deleteMenuItemOp "1" (.goMk [⟨"1", "Pumpkin Pie", "Alex"⟩])).2 = "null"
      ∧ isJsonArrayText "null" = false
      ∧ isJsonArrayText (marshalIndentList [⟨"1", "Pumpkin Pie", "Alex"⟩]) = true := by
  decide

theorem deleteLoop_foldl (id : String) (menu : List MenuItem) (acc : GoSlice) :
    (menu.foldl (fun acc it => if it.ID ≠ id then acc.append1 it else acc) acc).toList
      = acc.toList ++ menu.filter (fun e => e.ID ≠ id) := by
  induction menu generalizing acc with
  | nil => simp
  | cons x xs ih =>
    rw [List.foldl_cons, List.filter_cons]
    by_cases h : x.ID = id
    · rw [if_neg (by simp [h]), if_neg (by simp [h])]
      exact ih acc
    · rw [if_pos h, if_pos (by simp [h]), ih (acc.append1 x),
          GoSlice.toList_append1, List.append_assoc]
      rfl

theorem deleteLoop_toList (id : String) (menu : List MenuItem) :
    (deleteLoop id menu).toList = menu.filter (fun e => e.ID ≠ id) := by
  unfold deleteLoop
  rw [deleteLoop_foldl]
  rfl

/-- Claim C3: `remove(k)` succeeds on every readable Menu and returns
exactly the entries whose id differs from `k`, in their original relative
order; when no entry carries id `k`, the returned (and persisted) Menu is
unchanged and the operation still reports success. -/
theorem C3_remove_filters (unmarshal : String → Except String GoSlice)
    (id : String) (file : Option String) (menu : GoSlice)
    (h : readMenu unmarshal file = .ok menu) :
    deleteMenuItem unmarshal id file = .ok (deleteMenuItemOp id menu)
      ∧ (deleteMenuItemOp id menu).1.toList
          = menu.toList.filter (fun e => e.ID ≠ id)
      ∧ (deleteMenuItemOp id menu).2
          = marshalIndentSlice (deleteMenuItemOp id menu).1
      ∧ (id ∉ menu.toList.map MenuItem.ID →
          (deleteMenuItemOp id menu).1.toList = menu.toList) := by
  refine ⟨?_, deleteLoop_toList id menu.toList, rfl, ?_⟩
  · unfold deleteMenuItem
    rw [h]
  · intro hno
    show (deleteLoop id menu.toList).toList = menu.toList
    rw [deleteLoop_toList id menu.toList]
    apply List.filter_eq_self.mpr
    intro e he
    simp only [decide_eq_true_eq]
    intro heq
    exact hno (heq ▸ List.mem_map_of_mem MenuItem.ID he)

/-- Witness for C3 at a concrete input: an empty file read through a
decoder that is never consulted, removing an absent id. -/
theorem C3_remove_filters_witness :
    readMenu (fun _ => Except.error "boom") none = .ok (.goMk [])
      ∧ deleteMenuItem (fun _ => Except.error "boom") "9" none
          = .ok (deleteMenuItemOp "9" (.goMk [])) :=
  ⟨rfl, (C3_remove_filters (fun _ => Except.error "boom") "9" none (.goMk []) rfl).1⟩

theorem addMenuItemHandler_ok (now : Int) (body : MenuItem) (menu : GoSlice)
    (hd : body.Dish ≠ "") (hw : body.Who ≠ "") :
    addMenuItemHandler now body menu
      = .ok (menu.append1 { body with ID := formatInt now },
             marshalIndentSlice (menu.append1 { body with ID := formatInt now })) := by
  unfold addMenuItemHandler
  rw [if_neg]
  push_neg
  exact ⟨hd, hw⟩

/-- Claim C1, as amended: for non-empty dish and contributor, `add` returns
the input Menu with exactly one new entry appended carrying the given dish,
contributor, and the non-empty clock-derived decimal id; the new id is
distinct from every pre-existing id whenever the clock's decimal string
does not already occur in the Menu (which the code does not check). -/
theorem C1_add_appends_fresh (now : Int) (body : MenuItem) (menu : GoSlice)
    (hd : body.Dish ≠ "") (hw : body.Who ≠ "")
    (hfresh : formatInt now ∉ menu.toList.map MenuItem.ID) :
    ∃ r : GoSlice × String,
      addMenuItemHandler now body menu = .ok r
        ∧ r.1.toList = menu.toList ++ [⟨formatInt now, body.Dish, body.Who⟩]
        ∧ r.1.toList.length = menu.toList.length + 1
        ∧ r.1.toList.getLast? = some ⟨formatInt now, body.Dish, body.Who⟩
        ∧ formatInt now ≠ ""
        ∧ (∀ e ∈ menu.toList, e.ID ≠ formatInt now) := by
  refine ⟨(menu.append1 { body with ID := formatInt now },
           marshalIndentSlice (menu.append1 { body with ID := formatInt now })), ?_, ?_, ?_, ?_, ?_, ?_⟩
  · exact addMenuItemHandler_ok now body menu hd hw
  · rw [GoSlice.toList_append1]
  · rw [GoSlice.toList_append1, List.length_append]
    rfl
  · rw [GoSlice.toList_append1, List.getLast?_concat]
  · exact formatInt_ne_empty now
  · intro e he heq
    exact hfresh (heq ▸ List.mem_map_of_mem MenuItem.ID he)

/-- Witness for C1 at a concrete input: adding a dish at clock value 7 to a
menu whose single entry has id 5. -/
theorem C1_add_appends_fresh_witness :
    (("Pie" : String) ≠ "" ∧ ("Bob" : String) ≠ ""
        ∧ formatInt 7 ∉ (GoSlice.goMk [⟨"5", "Turkey", "Will"⟩]).toList.map MenuItem.ID)
      ∧ ∃ r : GoSlice × String,
          addMenuItemHandler 7 ⟨"", "Pie", "Bob"⟩ (.goMk [⟨"5", "Turkey", "Will"⟩]) = .ok r
            ∧ r.1.toList
                = (GoSlice.goMk [⟨"5", "Turkey", "Will"⟩]).toList
                    ++ [⟨formatInt 7, "Pie", "Bob"⟩]
            ∧ r.1.toList.length
                = (GoSlice.goMk [⟨"5", "Turkey", "Will"⟩]).toList.length + 1
            ∧ r.1.toList.getLast? = some ⟨formatInt 7, "Pie", "Bob"⟩
            ∧ formatInt 7 ≠ ""
            ∧ (∀ e ∈ (GoSlice.goMk [⟨"5", "Turkey", "Will"⟩]).toList,
                e.ID ≠ formatInt 7) :=
  ⟨⟨by decide, by decide, by decide⟩,
   C1_add_appends_fresh 7 ⟨"", "Pie", "Bob"⟩ (.goMk [⟨"5", "Turkey", "Will"⟩])
     (by decide) (by decide) (by decide)⟩

/-- Counterexample to Claim C1 as stated: when an add lands in the same
nanosecond tick that produced an existing entry's id (here the seed
timestamp 1763786780838787402), the valid new entry is appended with an id
equal to that pre-existing id — the freshly assigned id is not distinct
from every id already in the Menu. -/
theorem C1_id_collision :
    addMenuItemHandler 1763786780838787402 ⟨"", "Pie", "Bob"⟩
          (.goMk [⟨"1763786780838787402", "Turkey", "Will"⟩])
        = .ok (.goMk [⟨"1763786780838787402", "Turkey", "Will"⟩,
                      ⟨"1763786780838787402", "Pie", "Bob"⟩],
               marshalIndentList [⟨"1763786780838787402", "Turkey", "Will"⟩,
                                  ⟨"1763786780838787402", "Pie", "Bob"⟩])
      ∧ ("Pie" : String) ≠ "" ∧ ("Bob" : String) ≠ ""
      ∧ formatInt 1763786780838787402
          ∈ ([⟨"1763786780838787402", "Turkey", "Will"⟩] : List MenuItem).map
              MenuItem.ID := by
  refine ⟨?_, by decide, by decide, by decide⟩
  rfl

/-- Claim C10: the server discards any id supplied in the request body —
two add requests that differ only in the body's id field produce identical
results, and the entry actually appended carries the clock-derived id. -/
theorem C10_client_id_ignored (now : Int) (b1 b2 : MenuItem) (menu : GoSlice)
    (hd : b1.Dish = b2.Dish) (hw : b1.Who = b2.Who) :
    addMenuItemHandler now b1 menu = addMenuItemHandler now b2 menu
      ∧ (b1.Dish ≠ "" → b1.Who ≠ "" →
          ∃ r : GoSlice × String,
            addMenuItemHandler now b1 menu = .ok r
              ∧ r.1.toList.getLast? = some ⟨formatInt now, b1.Dish, b1.Who⟩) := by
  constructor
  · unfold addMenuItemHandler
    rw [hd, hw]
  · intro hdne hwne
    refine ⟨(menu.append1 { b1 with ID := formatInt now },
             marshalIndentSlice (menu.append1 { b1 with ID := formatInt now })),
            addMenuItemHandler_ok now b1 menu hdne hwne, ?_⟩
    rw [GoSlice.toList_append1, List.getLast?_concat]

/-- Witness for C10 at a concrete input: two bodies differing only in the
id field, one of which tries to smuggle in an id of its own. -/
theorem C10_client_id_ignored_witness :
    (("Pie" : String) = "Pie" ∧ ("Bob" : String) = "Bob")
      ∧ (addMenuItemHandler 3 ⟨"evil", "Pie", "Bob"⟩ .goNil
            = addMenuItemHandler 3 ⟨"", "Pie", "Bob"⟩ .goNil
          ∧ ((MenuItem.Dish ⟨"evil", "Pie", "Bob"⟩) ≠ "" →
              (MenuItem.Who ⟨"evil", "Pie", "Bob"⟩) ≠ "" →
              ∃ r : GoSlice × String,
                addMenuItemHandler 3 ⟨"evil", "Pie", "Bob"⟩ .goNil = .ok r
                  ∧ r.1.toList.getLast?
                      = some ⟨formatInt 3, MenuItem.Dish ⟨"evil", "Pie", "Bob"⟩,
                              MenuItem.Who ⟨"evil", "Pie", "Bob"⟩⟩)) :=
  ⟨⟨rfl, rfl⟩,
   C10_client_id_ignored 3 ⟨"evil", "Pie", "Bob"⟩ ⟨"", "Pie", "Bob"⟩ .goNil rfl rfl⟩

/-! ### The Broadcaster -/

/-- A buffered Go channel of snapshots: its pending buffer, its fixed
capacity (the streaming handler allocates capacity five), and whether it
has been closed. -/
structure Chan where
  buf : List String
  cap : Nat
  closed : Bool
deriving DecidableEq, Repr

/-- `close(ch)`. A closed channel accepts no further sends. -/
def closeChan (c : Chan) : Chan :=
  { c with closed := true }

/-- The non-blocking `select \x7b case ch <- data: default: \x7d` send used
by `broadcastMenuUpdate`: deliver when the buffer has free space, drop the
snapshot otherwise. Registered channels are never closed (`removeClient`
closes and unregisters atomically under the registry lock), so the send is
only ever applied to open channels. -/
def trySend (data : String) (c : Chan) : Chan :=
  if c.buf.length < c.cap then { c with buf := c.buf ++ [data] } else c

/-- The Broadcaster state: a heap of every channel ever created (a channel
object outlives its registry entry, since the subscriber side keeps
reading it), the registry mapping client id to its channel's heap index
(the Go `clients` map), and the id counter (`nextClientID`). -/
structure BState where
  chans : List Chan
  clients : List (Nat × Nat)
  nextClientID : Nat
deriving DecidableEq, Repr

/-- Replace the element at one index, leaving the list unchanged when the
index is out of range. -/
def modifyIdx {α : Type} : List α → Nat → (α → α) → List α
  | [], _, _ => []
  | c :: cs, 0, f => f c :: cs
  | c :: cs, n + 1, f => c :: modifyIdx cs n f

/-- Go map indexing `clients[id]`: the channel index registered under a
client id, if any. -/
def lookupClient (id : Nat) : List (Nat × Nat) → Option Nat
  | [] => none
  | p :: rest => if p.1 = id then some p.2 else lookupClient id rest

/-- `addClient`: allocate a fresh channel of the given capacity, register
it under the next client id, and return the new state with that id. -/
def addClient (cap : Nat) (s : BState) : BState × Nat :=
  ({ chans := s.chans ++ [⟨[], cap, false⟩],
     clients := s.clients ++ [(s.nextClientID + 1, s.chans.length)],
     nextClientID := s.nextClientID + 1 },
   s.nextClientID + 1)

/-- `removeClient`: if the id is registered, close its channel and delete
the registry entry; otherwise do nothing. Both happen under the registry
lock, so they are modelled as one atomic state change. -/
def removeClient (id : Nat) (s : BState) : BState :=
  match lookupClient id s.clients with
  | none => s
  | some idx =>
    { s with clients := s.clients.filter (fun p => p.1 ≠ id),
             chans := modifyIdx s.chans idx closeChan }

/-- The iteration of `broadcastMenuUpdate` over the registry: one
non-blocking send per registered channel. -/
def sendAll (data : String) : List (Nat × Nat) → List Chan → List Chan
  | [], cs => cs
  | p :: rest, cs => sendAll data rest (modifyIdx cs p.2 (trySend data))

/-- `broadcastMenuUpdate`: under the registry lock, attempt a non-blocking
send of the snapshot to every currently registered channel. -/
def broadcastMenuUpdate (data : String) (s : BState) : BState :=
  { s with chans := sendAll data s.clients s.chans }

theorem getElem?_modifyIdx_self {α : Type} (l : List α) (i : Nat) (f : α → α) :
    (modifyIdx l i f)[i]? = (l[i]?).map f := by
  induction l generalizing i with
  | nil => simp [modifyIdx]
  | cons c cs ih =>
    cases i with
    | zero => simp [modifyIdx]
    | succ n => simpa [modifyIdx] using ih n

theorem getElem?_modifyIdx_ne {α : Type} (l : List α) (i j : Nat) (f : α → α)
    (h : j ≠ i) : (modifyIdx l i f)[j]? = l[j]? := by
  induction l generalizing i j with
  | nil => simp [modifyIdx]
  | cons c cs ih =>
    cases i with
    | zero =>
      cases j with
      | zero => exact absurd rfl h
      | succ m => simp [modifyIdx]
    | succ n =>
      cases j with
      | zero => simp [modifyIdx]
      | succ m =>
        simpa [modifyIdx] using ih n m (fun hc => h (by rw [hc]))

theorem sendAll_getElem?_notMem (data : String) (cls : List (Nat × Nat))
    (cs : List Chan) (j : Nat) (h : j ∉ cls.map Prod.snd) :
    (sendAll data cls cs)[j]? = cs[j]? := by
  induction cls generalizing cs with
  | nil => rfl
  | cons p rest ih =>
    rw [List.map_cons, List.mem_cons, not_or] at h
    rw [sendAll, ih _ h.2, getElem?_modifyIdx_ne _ _ _ _ h.1]

theorem sendAll_getElem?_mem (data : String) (cls : List (Nat × Nat))
    (cs : List Chan) (p : Nat × Nat) (hp : p ∈ cls)
    (hnd : (cls.map Prod.snd).Nodup) :
    (sendAll data cls cs)[p.2]? = (cs[p.2]?).map (trySend data) := by
  induction cls generalizing cs with
  | nil => exact absurd hp (List.not_mem_nil p)
  | cons q rest ih =>
    rw [List.map_cons, List.nodup_cons] at hnd
    rcases List.mem_cons.mp hp with heq | hmem
    · subst heq
      rw [sendAll, sendAll_getElem?_notMem data rest _ p.2 hnd.1,
          getElem?_modifyIdx_self]
    · have hne : p.2 ≠ q.2 := by
        intro hc
        exact hnd.1 (hc ▸ List.mem_map_of_mem Prod.snd hmem)
      rw [sendAll, ih _ hmem hnd.2, getElem?_modifyIdx_ne _ _ _ _ hne]

/-- Claim C2: `broadcastMenuUpdate` performs one independent non-blocking
send per registered subscriber — each registered channel is updated
exactly by `trySend` applied to its own previous state (so a channel with
buffer space receives the snapshot exactly once at the tail of its buffer,
and a full channel is left untouched, dropping the snapshot for that
subscriber only), every channel outside the registry is untouched, and the
registry itself is unchanged. -/
theorem C2_publish_per_subscriber (data : String) (s : BState)
    (hnd : (s.clients.map Prod.snd).Nodup) :
    (∀ p ∈ s.clients,
        (broadcastMenuUpdate data s).chans[p.2]?
          = (s.chans[p.2]?).map (trySend data))
      ∧ (∀ j : Nat, j ∉ s.clients.map Prod.snd →
          (broadcastMenuUpdate data s).chans[j]? = s.chans[j]?)
      ∧ (broadcastMenuUpdate data s).clients = s.clients
      ∧ (∀ c : Chan, c.buf.length < c.cap →
          trySend data c = { c with buf := c.buf ++ [data] })
      ∧ (∀ c : Chan, ¬ c.buf.length < c.cap → trySend data c = c) := by
  refine ⟨fun p hp => ?_, fun j hj => ?_, rfl, fun c hc => ?_, fun c hc => ?_⟩
  · exact sendAll_getElem?_mem data s.clients s.chans p hp hnd
  · exact sendAll_getElem?_notMem data s.clients s.chans j hj
  · exact if_pos hc
  · exact if_neg hc

/-- Witness for C2 at a concrete state: two subscribers, one with buffer
space (it receives the snapshot) and one already full (the snapshot is
dropped for it). -/
theorem C2_publish_per_subscriber_witness :
    ((([(1, 0), (2, 1)] : List (Nat × Nat)).map Prod.snd).Nodup)
      ∧ (∀ p ∈ ([(1, 0), (2, 1)] : List (Nat × Nat)),
          (broadcastMenuUpdate "snap"
              ⟨[⟨[], 5, false⟩, ⟨["old"], 1, false⟩], [(1, 0), (2, 1)], 2⟩).chans[p.2]?
            = ((⟨[⟨[], 5, false⟩, ⟨["old"], 1, false⟩], [(1, 0), (2, 1)], 2⟩ :
                  BState).chans[p.2]?).map (trySend "snap")) :=
  ⟨by decide,
   (C2_publish_per_subscriber "snap"
     ⟨[⟨[], 5, false⟩, ⟨["old"], 1, false⟩], [(1, 0), (2, 1)], 2⟩ (by decide)).1⟩

theorem lookupClient_mem (id idx : Nat) (l : List (Nat × Nat))
    (h : lookupClient id l = some idx) : (id, idx) ∈ l := by
  induction l with
  | nil => exact absurd h (by simp [lookupClient])
  | cons p rest ih =>
    rw [lookupClient] at h
    by_cases hp : p.1 = id
    · rw [if_pos hp] at h
      have : p = (id, idx) := by
        cases p
        cases hp
        cases Option.some.injEq _ _ ▸ h
        simp_all
      exact this ▸ List.mem_cons_self p rest
    · rw [if_neg hp] at h
      exact List.mem_cons_of_mem p (ih h)

theorem lookupClient_filter_self (id : Nat) (l : List (Nat × Nat)) :
    lookupClient id (l.filter (fun p => p.1 ≠ id)) = none := by
  induction l with
  | nil => rfl
  | cons p rest ih =>
    rw [List.filter_cons]
    by_cases hp : p.1 = id
    · rw [if_neg (by simp [hp])]
      exact ih
    · rw [if_pos (by simp [hp]), lookupClient, if_neg hp]
      exact ih

theorem snd_not_mem_filter (id idx : Nat) (l : List (Nat × Nat))
    (hnd : (l.map Prod.snd).Nodup) (hmem : (id, idx) ∈ l) :
    idx ∉ (l.filter (fun p => p.1 ≠ id)).map Prod.snd := by
  intro hin
  obtain ⟨q, hq, hq2⟩ := List.mem_map.mp hin
  have hqf := List.mem_filter.mp hq
  have hqne : q.1 ≠ id := by simpa using hqf.2
  have hinj := List.inj_on_of_nodup_map hnd
  have : q = (id, idx) := hinj hqf.1 hmem (by simpa using hq2)
  exact hqne (by rw [this])

/-- Claim C7: once `removeClient(id)` has returned, the id is no longer
registered, its channel is closed (accepts no further sends), no later
`broadcastMenuUpdate` delivers anything to that channel or changes the
registry, and a second `removeClient(id)` is a no-op leaving the state
unchanged. -/
theorem C7_unsubscribe_inert (s : BState) (id idx : Nat)
    (hl : lookupClient id s.clients = some idx)
    (hnd : (s.clients.map Prod.snd).Nodup)
    (hlen : idx < s.chans.length) :
    lookupClient id (removeClient id s).clients = none
      ∧ ((removeClient id s).chans[idx]?).map Chan.closed = some true
      ∧ (∀ data : String,
          (broadcastMenuUpdate data (removeClient id s)).clients
              = (removeClient id s).clients
            ∧ (broadcastMenuUpdate data (removeClient id s)).chans[idx]?
              = (removeClient id s).chans[idx]?)
      ∧ removeClient id (removeClient id s) = removeClient id s := by
  have hs' : removeClient id s
      = { s with clients := s.clients.filter (fun p => p.1 ≠ id),
                 chans := modifyIdx s.chans idx closeChan } := by
    unfold removeClient
    rw [hl]
  have hnone : lookupClient id (removeClient id s).clients = none := by
    rw [hs']
    exact lookupClient_filter_self id s.clients
  have hnotmem : idx ∉ (removeClient id s).clients.map Prod.snd := by
    rw [hs']
    exact snd_not_mem_filter id idx s.clients hnd (lookupClient_mem id idx s.clients hl)
  refine ⟨hnone, ?_, fun data => ⟨rfl, ?_⟩, ?_⟩
  · rw [hs']
    show ((modifyIdx s.chans idx closeChan)[idx]?).map Chan.closed = some true
    rw [getElem?_modifyIdx_self, List.getElem?_eq_getElem hlen]
    rfl
  · exact sendAll_getElem?_notMem data (removeClient id s).clients
      (removeClient id s).chans idx hnotmem
  · show removeClient id (removeClient id s) = removeClient id s
    generalize hgen : removeClient id s = t at hnone
    unfold removeClient
    rw [hnone]

/-- Witness for C7 at a concrete state: two registered subscribers;
unsubscribing the first closes its channel. -/
theorem C7_unsubscribe_inert_witness :
    (lookupClient 1 (⟨[⟨[], 5, false⟩, ⟨[], 5, false⟩], [(1, 0), (2, 1)], 2⟩ :
          BState).clients = some 0)
      ∧ lookupClient 1
          (removeClient 1
            ⟨[⟨[], 5, false⟩, ⟨[], 5, false⟩], [(1, 0), (2, 1)], 2⟩).clients = none
      ∧ ((removeClient 1
            ⟨[⟨[], 5, false⟩, ⟨[], 5, false⟩], [(1, 0), (2, 1)], 2⟩).chans[0]?).map
          Chan.closed = some true :=
  ⟨by decide,
   (C7_unsubscribe_inert ⟨[⟨[], 5, false⟩, ⟨[], 5, false⟩], [(1, 0), (2, 1)], 2⟩
      1 0 (by decide) (by decide) (by decide)).1,
   (C7_unsubscribe_inert ⟨[⟨[], 5, false⟩, ⟨[], 5, false⟩], [(1, 0), (2, 1)], 2⟩
      1 0 (by decide) (by decide) (by decide)).2.1⟩

/-! ### Interleaving model of the Store's lock discipline

The monolithic `main.go` handlers hold the mutex `mu` across their whole
read-modify-persist sequence. The decomposed app package instead locks
only inside `readMenu`, while `writeMenu` takes no lock at all, so
`addMenuItem` runs read (locked) / append (unlocked) / write (unlocked).
The model below makes both lock placements explicit as straight-line
programs of atomic actions over a shared file and a mutex, and runs them
under an explicit schedule. The file is abstracted to its parsed entry
list. -/

/-- One atomic action of a Store operation. -/
inductive StoreAction where
  | acquire : StoreAction
  | release : StoreAction
  | readFile : StoreAction
  | appendLocal : MenuItem → StoreAction
  | writeFile : StoreAction
deriving DecidableEq, Repr

/-- One goroutine running a Store operation: its remaining actions and its
local `menu` variable. -/
structure ThreadSt where
  prog : List StoreAction
  reg : List MenuItem
deriving DecidableEq, Repr

/-- The shared system state: the backing file (parsed), the mutex holder,
and the goroutines. -/
structure Sys where
  file : List MenuItem
  lockHolder : Option Nat
  threads : List ThreadSt
deriving DecidableEq, Repr

/-- Replace the thread record at one index. -/
def setThread (ts : List ThreadSt) (tid : Nat) (t : ThreadSt) : List ThreadSt :=
  modifyIdx ts tid (fun _ => t)

/-- Let the chosen goroutine execute its next action. A finished thread
does nothing; an `acquire` while another thread holds the mutex blocks,
which a schedule observes as a stutter step. -/
def stepThread (s : Sys) (tid : Nat) : Sys :=
  match s.threads[tid]? with
  | none => s
  | some t =>
    match t.prog with
    | [] => s
    | a :: rest =>
      match a with
      | .acquire =>
        if s.lockHolder = none then
          { s with lockHolder := some tid,
                   threads := setThread s.threads tid { t with prog := rest } }
        else s
      | .release =>
        { s with lockHolder := none,
                 threads := setThread s.threads tid { t with prog := rest } }
      | .readFile =>
        { s with threads := setThread s.threads tid { prog := rest, reg := s.file } }
      | .appendLocal it =>
        { s with threads := setThread s.threads tid
                              { t with prog := rest, reg := t.reg ++ [it] } }
      | .writeFile =>
        { s with file := t.reg,
                 threads := setThread s.threads tid { t with prog := rest } }

/-- Run a schedule: at each step the named goroutine executes (or stutters
when blocked or finished). -/
def run (sched : List Nat) (s : Sys) : Sys :=
  sched.foldl stepThread s

/-- `addMenuItem` of the decomposed app package: `readMenu` locks around
the read only, then the append and the `writeMenu` write happen with the
mutex released. -/
def appAppendProg (it : MenuItem) : List StoreAction :=
  [.acquire, .readFile, .release, .appendLocal it, .writeFile]

/-- `addMenuItem` of the monolithic `main.go`: the mutex is held from
before the read until after the write. -/
def monoAppendProg (it : MenuItem) : List StoreAction :=
  [.acquire, .readFile, .appendLocal it, .writeFile, .release]

/-- Two concurrent add operations starting from an empty file. -/
def twoAdds (prog : MenuItem → List StoreAction) : Sys :=
  { file := [],
    lockHolder := none,
    threads := [⟨prog ⟨"a1", "Cornbread", "Jess"⟩, []⟩,
                ⟨prog ⟨"a2", "Rolls", "Sam"⟩, []⟩] }

/-- The schedule that interleaves the two adds: thread 0 reads and
releases, thread 1 reads and releases, then each writes in turn. Under
the monolithic lock placement the same schedule leaves thread 1 blocked
until thread 0 has released, so the trailing slots let it finish. -/
def racySched : List Nat :=
  [0, 0, 0, 1, 1, 1, 0, 0, 1, 1, 1, 1, 1]

/-- Claim C4 (refuted on the decomposed code): under the app package's lock
placement, the interleaving `racySched` of two concurrent adds completes
both operations yet persists only the second item — the first append is a
lost update — whereas the monolithic lock placement serializes the same
schedule and persists both items. -/
theorem C4_app_lock_loses_update :
    (run racySched (twoAdds appAppendProg)).file = [⟨"a2", "Rolls", "Sam"⟩]
      ∧ (∀ t ∈ (run racySched (twoAdds appAppendProg)).threads, t.prog = [])
      ∧ (run racySched (twoAdds monoAppendProg)).file
          = [⟨"a1", "Cornbread", "Jess"⟩, ⟨"a2", "Rolls", "Sam"⟩]
      ∧ (∀ t ∈ (run racySched (twoAdds monoAppendProg)).threads, t.prog = []) := by
  decide

end Friendsgiving
